import Mathlib

/-!
Shallow embedding of `src/main.rs` of rustysdx-audio.

The program glues a serial byte stream to local audio: `receive_serial_audio`
reads serial chunks into a shared `Vec<u8>` buffer, `play_receive_audio`
drains that buffer in 500-byte slices and feeds them to a decoder,
and `transmit_audio_via_serial` gates captured microphone samples on a
silence test (all samples equal to the center value 128) and writes
mode-switch control sequences plus audio to the serial port.

Bytes and u8 samples are modelled as `Nat`; every value the program
manipulates lies in 0..255 and only comparisons and equality tests are
performed on them, so no modular arithmetic arises.  Blocking loops
(the underrun refill loop) are modelled by passing in the finite list of
byte chunks that the other thread appends during the waits; exhausting
that list models waiting forever.  Rust panics (`Vec::drain` out of
range, `Result::unwrap` on `Err`) are explicit outcome constructors.
-/

/-- A byte / u8 audio sample, modelled as a natural number in 0..255. -/
abbrev Byte := Nat

/-- Mirrors `struct SharedState` (main.rs lines 15-19): the shared growable
byte buffer, the underrun counter and the transmit flag. -/
structure SharedState where
  buf : List Byte
  underrun_counter : Nat
  tx_status : Bool
  deriving DecidableEq

/-- Result of one `serport.read(&mut buffer)` call as the receive loop
distinguishes them (main.rs lines 25-37): a successful read of the given
bytes (at most the 500-byte read block), `WouldBlock`, or any other error. -/
inductive ReadResult where
  | ok (bytes : List Byte)
  | wouldBlock
  | fatal
  deriving DecidableEq

/-- Observable action of one receive-loop iteration: bytes were appended to
the shared buffer, the thread slept for the given number of milliseconds,
or the loop `break`s.  The code has no constructor for blocking or
rejecting an enqueue: `extend_from_slice` always succeeds. -/
inductive RxAction where
  | enqueued (n : Nat)
  | slept (ms : Nat)
  | stopped
  deriving DecidableEq

/-- One iteration of the `loop` in `receive_serial_audio` (main.rs lines
24-38): on `Ok(bytes_read)` the bytes read are appended to `state.buf`;
on `WouldBlock` the thread sleeps 10 ms and retries; on any other error
the loop breaks, leaving the shared state untouched (there is no channel
to close: `SharedState` has no closed flag). -/
def receive_serial_audio_step (r : ReadResult) (s : SharedState) :
    SharedState × RxAction :=
  match r with
  | ReadResult.ok bytes =>
      ({ s with buf := s.buf ++ bytes }, RxAction.enqueued bytes.length)
  | ReadResult.wouldBlock => (s, RxAction.slept 10)
  | ReadResult.fatal => (s, RxAction.stopped)

/-- Folds a sequence of successful reads through the receive loop: the
shared-state evolution after the given chunks have all been read. -/
def receive_ok_run (chunks : List (List Byte)) (s : SharedState) : SharedState :=
  chunks.foldl (fun t c => (receive_serial_audio_step (ReadResult.ok c) t).1) s

/-- Outcome of one iteration of the `loop` in `play_receive_audio`
(main.rs lines 43-59):
* `blocked u`: the refill `while` loop never reached 10 buffered bytes and
  the supplied arrivals ran out, i.e. the thread sleeps forever; `u` is the
  underrun counter at that point;
* `drainPanic s`: `state_guard.buf.drain(..500)` panicked because the
  buffer held fewer than 500 bytes at the drain;
* `decodePanic s chunk`: `Decoder::new(cursor).unwrap()` panicked because
  the decoder rejected the drained 500-byte `chunk`;
* `appended s chunk samples`: the decoded `samples` of `chunk` were
  appended to the sink and the loop continues with state `s`. -/
inductive PlayOutcome where
  | blocked (underruns : Nat)
  | drainPanic (s : SharedState)
  | decodePanic (s : SharedState) (chunk : List Byte)
  | appended (s : SharedState) (chunk : List Byte) (samples : List Int)
  deriving DecidableEq

/-- The refill `while state_guard.buf.len() < 10` loop (main.rs lines
48-52).  Each sleep releases the lock, during which the receive thread may
append the next element of `arrivals`; the loop exits once the buffer
holds at least 10 bytes.  `none` means the arrivals were exhausted while
still short, i.e. the loop spins forever. -/
def underrun_refill (arrivals : List (List Byte)) (buf : List Byte) :
    Option (List Byte) :=
  if 10 ≤ buf.length then some buf
  else
    match arrivals with
    | [] => none
    | a :: rest => underrun_refill rest (buf ++ a)

/-- Lines 54-57: `buf.drain(..500)` followed by decode and append.
`drain(..500)` panics when the buffer holds fewer than 500 bytes;
otherwise exactly the first 500 bytes are removed and handed to the
decoder, whose `unwrap` panics on a decode error. -/
def drain_and_decode (decode : List Byte → Option (List Int))
    (s : SharedState) : PlayOutcome :=
  if 500 ≤ s.buf.length then
    match decode (s.buf.take 500) with
    | none =>
        PlayOutcome.decodePanic { s with buf := s.buf.drop 500 } (s.buf.take 500)
    | some samples =>
        PlayOutcome.appended { s with buf := s.buf.drop 500 } (s.buf.take 500) samples
  else PlayOutcome.drainPanic s

/-- One iteration of the `loop` in `play_receive_audio` (main.rs lines
43-59): if the buffer holds fewer than 2 bytes, the underrun counter is
incremented once and the refill loop runs; then the 500-byte drain,
decode and sink append happen. -/
def play_receive_audio_iter (decode : List Byte → Option (List Int))
    (arrivals : List (List Byte)) (s : SharedState) : PlayOutcome :=
  if s.buf.length < 2 then
    match underrun_refill arrivals s.buf with
    | none => PlayOutcome.blocked (s.underrun_counter + 1)
    | some b =>
        drain_and_decode decode
          { buf := b, underrun_counter := s.underrun_counter + 1,
            tx_status := s.tx_status }
  else drain_and_decode decode s

/-- The underrun counter recorded in a playback-iteration outcome. -/
def outcomeUnderruns : PlayOutcome → Nat
  | PlayOutcome.blocked u => u
  | PlayOutcome.drainPanic s => s.underrun_counter
  | PlayOutcome.decodePanic s _ => s.underrun_counter
  | PlayOutcome.appended s _ _ => s.underrun_counter

/-- The chunk the decode collaborator received during a playback
iteration, if decode was invoked at all. -/
def decodedChunk : PlayOutcome → Option (List Byte)
  | PlayOutcome.decodePanic _ c => some c
  | PlayOutcome.appended _ c _ => some c
  | _ => none

/-- A decode collaborator that rejects every chunk. -/
def decNone : List Byte → Option (List Int) := fun _ => none

/-- A decode collaborator that accepts every chunk, producing no samples. -/
def decEmpty : List Byte → Option (List Int) := fun _ => some []

/-- A shared state holding 500 buffered bytes of value 37. -/
def sFull : SharedState :=
  { buf := List.replicate 500 37, underrun_counter := 0, tx_status := false }

/-- The value `buffer.iter().cloned().min().unwrap_or(128)` of
main.rs line 71. -/
def min_sample (l : List Byte) : Byte :=
  match l with
  | [] => 128
  | a :: rest => rest.foldl min a

/-- The value `buffer.iter().cloned().max().unwrap_or(128)` of
main.rs line 72. -/
def max_sample (l : List Byte) : Byte :=
  match l with
  | [] => 128
  | a :: rest => rest.foldl max a

/-- The activity test of main.rs line 75:
`min_sample != 128 || max_sample != 128`. -/
def isActive (b : List Byte) : Bool :=
  (min_sample b != 128) || (max_sample b != 128)

/-- One serial write issued by `transmit_audio_via_serial`: the
transmit-mode control sequence `b"UA1;TX0;"` (line 79), the receive-mode
sequence `b";RX;"` (line 85), or a captured audio buffer (line 81). -/
inductive TxWrite where
  | modeTx
  | modeRx
  | audio (buf : List Byte)
  deriving DecidableEq

/-- One iteration of the `loop` in `transmit_audio_via_serial` (main.rs
lines 68-90) as a function of the buffer examined this iteration and the
current `tx_status` flag: returns the new flag and the serial writes
issued, in order.  Active while not transmitting writes the transmit-mode
sequence then the buffer; active while transmitting writes only the
buffer; silent while transmitting writes the receive-mode sequence (after
the 100 ms settle sleep); silent while not transmitting writes nothing. -/
def transmit_audio_via_serial_step (captured : List Byte) (tx : Bool) :
    Bool × List TxWrite :=
  if isActive captured then
    if tx then (true, [TxWrite.audio captured])
    else (true, [TxWrite.modeTx, TxWrite.audio captured])
  else
    if tx then (false, [TxWrite.modeRx])
    else (false, [])

/-- Iterates `transmit_audio_via_serial_step` over a trace of examined
buffers, threading the `tx_status` flag and concatenating the serial
writes in order. -/
def transmit_audio_via_serial_run (trace : List (List Byte)) (tx : Bool) :
    Bool × List TxWrite :=
  match trace with
  | [] => (tx, [])
  | b :: rest =>
      let step := transmit_audio_via_serial_step b tx
      let todo := transmit_audio_via_serial_run rest step.1
      (todo.1, step.2 ++ todo.2)

/-- Whether a serial write is one of the two mode-switch control
sequences. -/
def isModeWrite : TxWrite → Bool
  | TxWrite.modeTx => true
  | TxWrite.modeRx => true
  | TxWrite.audio _ => false

/-- Number of mode-switch control sequences among a list of serial
writes. -/
def modeWrites (ws : List TxWrite) : Nat := (ws.filter isModeWrite).length

/-- Number of sign changes of a boolean sequence, starting from the given
initial value (the transmit flag starts `false`, i.e. silent). -/
def signChanges (b : Bool) : List Bool → Nat
  | [] => 0
  | x :: xs => (if x = b then 0 else 1) + signChanges x xs

/-- The bytes held in the local `buffer` of `transmit_audio_via_serial`
at the top of iteration `n`: it starts as `Vec::new()` (line 67) and
`buffer.clear()` runs at the end of every iteration (line 89), so nothing
is ever carried over. -/
def transmit_carried_buffer (n : Nat) : List Byte :=
  match n with
  | 0 => []
  | _ + 1 => []

/-- The buffer examined at iteration `n` of `transmit_audio_via_serial`:
line 69 extends the carried buffer from the `input_data: &[u8]` slice
argument, which is fixed when the function is called — main.rs lines
155-158 lock the capture buffer once, keep the guard for the lifetime of
the call, and pass that single snapshot. -/
def transmit_examined_buffer (input_data : List Byte) (n : Nat) : List Byte :=
  transmit_carried_buffer n ++ input_data

/-- The shared state at startup (main.rs lines 94-98). -/
def sEmpty : SharedState := { buf := [], underrun_counter := 0, tx_status := false }

/-- A shared state holding a single buffered byte. -/
def sOne : SharedState := { buf := [7], underrun_counter := 0, tx_status := false }

/-- A shared state holding 10 buffered bytes. -/
def sTen : SharedState := { buf := List.replicate 10 5, underrun_counter := 0, tx_status := false }

theorem foldl_min_all128 (l : List Byte) :
    ∀ a : Byte, a = 128 → (∀ x ∈ l, x = 128) → l.foldl min a = 128 := by
  induction l with
  | nil => intro a ha _; simpa using ha
  | cons x xs ih =>
      intro a ha h
      have hx : x = 128 := h x (by simp)
      have : List.foldl min a (x :: xs) = List.foldl min (min a x) xs := rfl
      rw [this]
      exact ih (min a x) (by simp [ha, hx]) (fun y hy => h y (by simp [hy]))

theorem foldl_max_all128 (l : List Byte) :
    ∀ a : Byte, a = 128 → (∀ x ∈ l, x = 128) → l.foldl max a = 128 := by
  induction l with
  | nil => intro a ha _; simpa using ha
  | cons x xs ih =>
      intro a ha h
      have hx : x = 128 := h x (by simp)
      have : List.foldl max a (x :: xs) = List.foldl max (max a x) xs := rfl
      rw [this]
      exact ih (max a x) (by simp [ha, hx]) (fun y hy => h y (by simp [hy]))

theorem min_sample_all128 (l : List Byte) (h : ∀ x ∈ l, x = 128) :
    min_sample l = 128 := by
  cases l with
  | nil => rfl
  | cons a rest =>
      exact foldl_min_all128 rest a (h a (by simp)) (fun y hy => h y (by simp [hy]))

theorem max_sample_all128 (l : List Byte) (h : ∀ x ∈ l, x = 128) :
    max_sample l = 128 := by
  cases l with
  | nil => rfl
  | cons a rest =>
      exact foldl_max_all128 rest a (h a (by simp)) (fun y hy => h y (by simp [hy]))

theorem isActive_all128 (b : List Byte) (h : ∀ x ∈ b, x = 128) :
    isActive b = false := by
  simp [isActive, min_sample_all128 b h, max_sample_all128 b h]

theorem foldl_max_le_init (l : List Nat) : ∀ a : Nat, a ≤ l.foldl max a := by
  induction l with
  | nil => intro a; exact le_refl a
  | cons x xs ih =>
      intro a
      exact le_trans (le_max_left a x) (ih (max a x))

theorem foldl_max_le_mem (l : List Nat) :
    ∀ (a x : Nat), x ∈ l → x ≤ l.foldl max a := by
  induction l with
  | nil => intro a x hx; simp at hx
  | cons y ys ih =>
      intro a x hx
      rcases List.mem_cons.mp hx with h | h
      · subst h
        exact le_trans (le_max_right a x) (foldl_max_le_init ys (max a x))
      · exact ih (max a y) x h

theorem le_max_sample (b : List Byte) (x : Byte) (hx : x ∈ b) :
    x ≤ max_sample b := by
  cases b with
  | nil => simp at hx
  | cons a rest =>
      rcases List.mem_cons.mp hx with h | h
      · subst h; exact foldl_max_le_init rest x
      · exact foldl_max_le_mem rest a x h

theorem isActive_of_200 (b : List Byte) (h : (200 : Byte) ∈ b) :
    isActive b = true := by
  have h1 : (200 : Byte) ≤ max_sample b := le_max_sample b 200 h
  have h2 : max_sample b ≠ 128 := by
    intro hc
    rw [hc] at h1
    exact absurd h1 (by decide)
  simp [isActive, h2]

theorem txStep_flag (b : List Byte) (t : Bool) :
    (transmit_audio_via_serial_step b t).1 = isActive b := by
  cases h : isActive b <;> cases t <;>
    simp [transmit_audio_via_serial_step, h]

theorem txStep_modeWrites (b : List Byte) (t : Bool) :
    modeWrites (transmit_audio_via_serial_step b t).2
      = if isActive b = t then 0 else 1 := by
  cases h : isActive b <;> cases t <;>
    simp [transmit_audio_via_serial_step, h, modeWrites, isModeWrite]

theorem modeWrites_append (l1 l2 : List TxWrite) :
    modeWrites (l1 ++ l2) = modeWrites l1 + modeWrites l2 := by
  simp [modeWrites, List.filter_append]

theorem txRun_count (trace : List (List Byte)) :
    ∀ t : Bool, modeWrites (transmit_audio_via_serial_run trace t).2
      = signChanges t (trace.map isActive) := by
  induction trace with
  | nil => intro t; rfl
  | cons b rest ih =>
      intro t
      show modeWrites ((transmit_audio_via_serial_step b t).2
          ++ (transmit_audio_via_serial_run rest (transmit_audio_via_serial_step b t).1).2)
        = signChanges t (isActive b :: rest.map isActive)
      rw [modeWrites_append, txStep_modeWrites, txStep_flag, ih (isActive b)]
      rfl

theorem txRun_append (l1 l2 : List (List Byte)) :
    ∀ t : Bool, transmit_audio_via_serial_run (l1 ++ l2) t =
      ((transmit_audio_via_serial_run l2 (transmit_audio_via_serial_run l1 t).1).1,
       (transmit_audio_via_serial_run l1 t).2
         ++ (transmit_audio_via_serial_run l2 (transmit_audio_via_serial_run l1 t).1).2) := by
  induction l1 with
  | nil => intro t; simp [transmit_audio_via_serial_run]
  | cons b rest ih =>
      intro t
      simp [transmit_audio_via_serial_run, ih]

theorem txRun_all128 (trace : List (List Byte))
    (h : ∀ b ∈ trace, ∀ x ∈ b, x = 128) :
    transmit_audio_via_serial_run trace false = (false, []) := by
  induction trace with
  | nil => rfl
  | cons b rest ih =>
      have hb : isActive b = false := isActive_all128 b (h b (by simp))
      have hr := ih (fun c hc => h c (by simp [hc]))
      simp [transmit_audio_via_serial_run, transmit_audio_via_serial_step, hb, hr]

theorem drain_underruns (decode : List Byte → Option (List Int)) (s : SharedState) :
    outcomeUnderruns (drain_and_decode decode s) = s.underrun_counter := by
  unfold drain_and_decode
  split
  · split <;> simp [outcomeUnderruns]
  · simp [outcomeUnderruns]

theorem drain_chunk_length (decode : List Byte → Option (List Int))
    (s : SharedState) (c : List Byte)
    (h : decodedChunk (drain_and_decode decode s) = some c) : c.length = 500 := by
  unfold drain_and_decode at h
  by_cases h500 : 500 ≤ s.buf.length
  · rw [if_pos h500] at h
    have hc : s.buf.take 500 = c := by
      cases hd : decode (s.buf.take 500) <;> rw [hd] at h <;>
        simpa [decodedChunk] using h
    rw [← hc, List.length_take]
    omega
  · rw [if_neg h500] at h
    simp [decodedChunk] at h

theorem underrun_refill_ge10 (arrivals : List (List Byte)) :
    ∀ (buf b : List Byte), underrun_refill arrivals buf = some b → 10 ≤ b.length := by
  induction arrivals with
  | nil =>
      intro buf b h
      unfold underrun_refill at h
      split at h
      · cases h; assumption
      · cases h
  | cons a rest ih =>
      intro buf b h
      unfold underrun_refill at h
      split at h
      · cases h; assumption
      · exact ih (buf ++ a) b h

theorem receive_ok_run_length (chunks : List (List Byte)) :
    ∀ s : SharedState,
      (receive_ok_run chunks s).buf.length
        = s.buf.length + (chunks.map List.length).sum := by
  induction chunks with
  | nil => intro s; simp [receive_ok_run]
  | cons c cs ih =>
      intro s
      have h1 : receive_ok_run (c :: cs) s
          = receive_ok_run cs { s with buf := s.buf ++ c } := rfl
      rw [h1, ih]
      simp [List.length_append]
      omega

/-- C1: the claim says a decode failure on one chunk is logged and dropped
and never terminates the playback pump; in the code the playback pump
calls `Decoder::new(cursor).unwrap()` (main.rs line 56), so a chunk the
decode collaborator rejects panics the pump thread instead.  Evaluated at
a full 500-byte buffer and a rejecting decoder, the iteration ends in
`decodePanic`. -/
theorem decode_failure_panics_playback :
    play_receive_audio_iter decNone [] sFull
      = PlayOutcome.decodePanic
          { buf := [], underrun_counter := 0, tx_status := false }
          (List.replicate 500 37) := by
  have hbuf : sFull.buf = List.replicate 500 37 := rfl
  have hlen : sFull.buf.length = 500 := by rw [hbuf, List.length_replicate]
  have hge : ¬ sFull.buf.length < 2 := by omega
  have h500 : (500 : Nat) ≤ sFull.buf.length := by omega
  unfold play_receive_audio_iter
  rw [if_neg hge]
  unfold drain_and_decode
  rw [if_pos h500]
  have hdec : decNone (sFull.buf.take 500) = none := rfl
  rw [hdec]
  have htake : sFull.buf.take 500 = List.replicate 500 37 := by
    rw [hbuf, List.take_replicate]
    simp
  have hdrop : sFull.buf.drop 500 = [] := by
    rw [hbuf, List.drop_replicate]
    simp
  rw [htake, hdrop]
  rfl

/-- C2: the claim says the shared buffer has a fixed capacity C and never
exceeds it, with enqueue blocking or rejected when full; in the code the
shared buffer is a plain `Vec<u8>` extended by every successful read
(main.rs line 28), so after n successful 500-byte reads it holds 500*n
bytes — exceeding any fixed capacity — and no enqueue ever blocks or is
rejected. -/
theorem shared_buffer_growth_unbounded (n : Nat) :
    (receive_ok_run (List.replicate n (List.replicate 500 0)) sEmpty).buf.length
      = 500 * n := by
  rw [receive_ok_run_length]
  have hmap : (List.replicate n (List.replicate 500 (0 : Byte))).map List.length
      = List.replicate n 500 := by
    rw [List.map_replicate, List.length_replicate]
  rw [hmap, List.sum_replicate, smul_eq_mul]
  have hbuf : sEmpty.buf.length = 0 := rfl
  rw [hbuf]
  omega

/-- C3: the claim says a fatal serial read error makes the receive pump
close its side of the channel so the playback pump observes `Closed` and
terminates gracefully; in the code the receive loop just `break`s
(main.rs lines 34-37), leaving the shared state untouched — there is no
close signal — and the playback pump, finding an empty buffer with no
further arrivals, increments the underrun counter and sleeps forever in
the refill loop (outcome `blocked`), never observing any termination. -/
theorem fatal_error_no_close_consumer_blocked
    (decode : List Byte → Option (List Int)) (u : Nat) (t : Bool)
    (s : SharedState) :
    receive_serial_audio_step ReadResult.fatal s = (s, RxAction.stopped) ∧
    play_receive_audio_iter decode [] { buf := [], underrun_counter := u, tx_status := t }
      = PlayOutcome.blocked (u + 1) :=
  ⟨rfl, rfl⟩

/-- C4: the receive-mode sequence is written iff the transmit flag goes
true to false, the transmit-mode sequence iff it goes false to true, no
mode sequence is written while the flag is unchanged, and over any trace
the number of mode sequences equals the number of sign changes of the
activity predicate (counted from the initial flag value, which main.rs
line 97 initializes to false, i.e. silent). -/
theorem mode_sequences_mark_transitions :
    (∀ (b : List Byte) (t : Bool),
        TxWrite.modeRx ∈ (transmit_audio_via_serial_step b t).2 ↔
          (t = true ∧ (transmit_audio_via_serial_step b t).1 = false)) ∧
    (∀ (b : List Byte) (t : Bool),
        TxWrite.modeTx ∈ (transmit_audio_via_serial_step b t).2 ↔
          (t = false ∧ (transmit_audio_via_serial_step b t).1 = true)) ∧
    (∀ (b : List Byte) (t : Bool),
        (transmit_audio_via_serial_step b t).1 = t →
          modeWrites (transmit_audio_via_serial_step b t).2 = 0) ∧
    (∀ (trace : List (List Byte)) (t : Bool),
        modeWrites (transmit_audio_via_serial_run trace t).2
          = signChanges t (trace.map isActive)) := by
  refine ⟨?_, ?_, ?_, ?_⟩
  · intro b t
    cases h : isActive b <;> cases t <;>
      simp [transmit_audio_via_serial_step, h]
  · intro b t
    cases h : isActive b <;> cases t <;>
      simp [transmit_audio_via_serial_step, h]
  · intro b t hflag
    rw [txStep_modeWrites]
    rw [txStep_flag] at hflag
    simp [hflag]
  · intro trace t
    exact txRun_count trace t

/-- Witness for C4 at concrete inputs: a silent buffer with the flag low
changes nothing and writes no mode sequence, and a two-buffer
silence-then-activity trace writes as many mode sequences as the activity
predicate changes sign. -/
theorem mode_sequences_mark_transitions_witness :
    modeWrites (transmit_audio_via_serial_step [128] false).2 = 0 ∧
    modeWrites (transmit_audio_via_serial_run [[128], [200]] false).2
      = signChanges false ([[128], [200]].map isActive) :=
  ⟨mode_sequences_mark_transitions.2.2.1 [128] false rfl,
   mode_sequences_mark_transitions.2.2.2 [[128], [200]] false⟩

/-- C5: the claim says successive transmit-gate iterations examine freshly
captured data; in the code the gate's `input_data: &[u8]` argument is one
snapshot of the capture buffer, locked once in main (lines 155-158) with
the guard held for the whole call, and every iteration of the gate loop
examines exactly that same snapshot. -/
theorem transmit_examines_fixed_snapshot (input_data : List Byte) (m n : Nat) :
    transmit_examined_buffer input_data m = transmit_examined_buffer input_data n ∧
    transmit_examined_buffer input_data n = input_data := by
  cases m <;> cases n <;>
    simp [transmit_examined_buffer, transmit_carried_buffer]

/-- C6: a `WouldBlock` serial read enqueues nothing and sleeps the fixed
10 ms before retrying; a successful read of N>0 bytes (at most the
500-byte read block) appends exactly those N bytes to the shared buffer,
growing it by N, not by the padded block size. -/
theorem read_enqueues_exact_bytes (s : SharedState) (bytes : List Byte)
    (hpos : 0 < bytes.length) (hblock : bytes.length ≤ 500) :
    (receive_serial_audio_step (ReadResult.ok bytes) s).1.buf = s.buf ++ bytes ∧
    (receive_serial_audio_step (ReadResult.ok bytes) s).1.buf.length
      = s.buf.length + bytes.length ∧
    (receive_serial_audio_step (ReadResult.ok bytes) s).2
      = RxAction.enqueued bytes.length ∧
    receive_serial_audio_step ReadResult.wouldBlock s = (s, RxAction.slept 10) := by
  refine ⟨rfl, ?_, rfl, rfl⟩
  simp [receive_serial_audio_step]

/-- Witness for C6: one byte read into a one-byte buffer. -/
theorem read_enqueues_exact_bytes_witness :
    (receive_serial_audio_step (ReadResult.ok [1]) sOne).1.buf = sOne.buf ++ [1] ∧
    (receive_serial_audio_step (ReadResult.ok [1]) sOne).1.buf.length
      = sOne.buf.length + [1].length ∧
    (receive_serial_audio_step (ReadResult.ok [1]) sOne).2
      = RxAction.enqueued [1].length ∧
    receive_serial_audio_step ReadResult.wouldBlock sOne = (sOne, RxAction.slept 10) :=
  read_enqueues_exact_bytes sOne [1] (by decide) (by decide)

/-- C7: over a trace in which every sample of every examined buffer is
the center value 128 and the transmit flag starts false, the gate issues
no serial writes at all and the flag stays false. -/
theorem silence_trace_no_writes (trace : List (List Byte))
    (h : ∀ b ∈ trace, ∀ x ∈ b, x = 128) :
    transmit_audio_via_serial_run trace false = (false, []) :=
  txRun_all128 trace h

/-- Witness for C7: two all-center buffers, one of them empty. -/
theorem silence_trace_no_writes_witness :
    transmit_audio_via_serial_run [[128, 128], []] false = (false, []) :=
  silence_trace_no_writes [[128, 128], []] (by decide)

/-- C8: a trace of all-128 silence buffers followed by one buffer holding
a single sample 200 among 128s, started with the flag false, produces
exactly the transmit-mode sequence followed by the write of that buffer,
in that order, and leaves the flag high. -/
theorem single_transition_one_mode_write (sils : List (List Byte))
    (pre post : List Byte)
    (hs : ∀ b ∈ sils, ∀ x ∈ b, x = 128)
    (hpre : ∀ x ∈ pre, x = 128) (hpost : ∀ x ∈ post, x = 128) :
    transmit_audio_via_serial_run (sils ++ [pre ++ 200 :: post]) false
      = (true, [TxWrite.modeTx, TxWrite.audio (pre ++ 200 :: post)]) := by
  rw [txRun_append, txRun_all128 sils hs]
  have hact : isActive (pre ++ 200 :: post) = true := isActive_of_200 _ (by simp)
  simp [transmit_audio_via_serial_run, transmit_audio_via_serial_step, hact]

/-- Witness for C8: one silent buffer, then the buffer 128, 200, 128. -/
theorem single_transition_one_mode_write_witness :
    transmit_audio_via_serial_run ([[128]] ++ [[128] ++ 200 :: [128]]) false
      = (true, [TxWrite.modeTx, TxWrite.audio ([128] ++ 200 :: [128])]) :=
  single_transition_one_mode_write [[128]] [128] [128]
    (by decide) (by decide) (by decide)

/-- C9: when the playback pump finds a single buffered byte (a chunk of
length 1, below the 2-byte minimum), the underrun counter grows by
exactly one, and in every possible outcome of the iteration the decode
collaborator is invoked only on a 500-byte drain — never on the
degenerate length-1 chunk. -/
theorem short_chunk_counts_one_underrun (decode : List Byte → Option (List Int))
    (arrivals : List (List Byte)) (s : SharedState) (h : s.buf.length = 1) :
    outcomeUnderruns (play_receive_audio_iter decode arrivals s)
      = s.underrun_counter + 1 ∧
    ∀ c : List Byte,
      decodedChunk (play_receive_audio_iter decode arrivals s) = some c →
        c.length = 500 := by
  have h2 : s.buf.length < 2 := by omega
  unfold play_receive_audio_iter
  rw [if_pos h2]
  cases hr : underrun_refill arrivals s.buf with
  | none =>
      exact ⟨rfl, fun c hc => by simp [decodedChunk] at hc⟩
  | some b =>
      exact ⟨drain_underruns decode _, fun c hc => drain_chunk_length decode _ c hc⟩

/-- Witness for C9: a buffer of one byte, no arrivals — the iteration
blocks in the refill loop, having counted exactly one underrun. -/
theorem short_chunk_counts_one_underrun_witness :
    outcomeUnderruns (play_receive_audio_iter decNone [] sOne)
      = sOne.underrun_counter + 1 :=
  (short_chunk_counts_one_underrun decNone [] sOne rfl).1

/-- C10: the playback drain removes exactly the first 500 buffered bytes
and hands exactly them to the decoder, and it is total only when at least
500 bytes are buffered: for any state holding between 10 and 499 bytes at
the drain point the iteration panics (`drain(..500)` out of range), while
the underrun refill loop only ever establishes that at least 10 bytes are
buffered. -/
theorem drain_requires_500_bytes :
    (∀ (decode : List Byte → Option (List Int)) (arrivals : List (List Byte))
        (s : SharedState), 10 ≤ s.buf.length → s.buf.length ≤ 499 →
        play_receive_audio_iter decode arrivals s = PlayOutcome.drainPanic s) ∧
    (∀ (decode : List Byte → Option (List Int)) (arrivals : List (List Byte))
        (s : SharedState) (samples : List Int),
        500 ≤ s.buf.length → decode (s.buf.take 500) = some samples →
        play_receive_audio_iter decode arrivals s
          = PlayOutcome.appended { s with buf := s.buf.drop 500 }
              (s.buf.take 500) samples) ∧
    (∀ (arrivals : List (List Byte)) (buf b : List Byte),
        underrun_refill arrivals buf = some b → 10 ≤ b.length) := by
  refine ⟨?_, ?_, ?_⟩
  · intro decode arrivals s h10 h499
    have hge : ¬ s.buf.length < 2 := by omega
    have h500 : ¬ 500 ≤ s.buf.length := by omega
    unfold play_receive_audio_iter
    rw [if_neg hge]
    unfold drain_and_decode
    rw [if_neg h500]
  · intro decode arrivals s samples h500 hd
    have hge : ¬ s.buf.length < 2 := by omega
    unfold play_receive_audio_iter
    rw [if_neg hge]
    unfold drain_and_decode
    rw [if_pos h500, hd]
  · intro arrivals buf b h
    exact underrun_refill_ge10 arrivals buf b h

/-- Witness for C10: a 10-byte buffer panics the drain; a 500-byte buffer
drains exactly those 500 bytes into the decoder; the refill loop result
in a concrete run holds at least 10 bytes. -/
theorem drain_requires_500_bytes_witness :
    play_receive_audio_iter decNone [] sTen = PlayOutcome.drainPanic sTen ∧
    play_receive_audio_iter decEmpty [] sFull
      = PlayOutcome.appended { sFull with buf := sFull.buf.drop 500 }
          (sFull.buf.take 500) [] ∧
    10 ≤ (List.replicate 10 (0 : Byte)).length :=
  ⟨drain_requires_500_bytes.1 decNone [] sTen (by decide) (by decide),
   drain_requires_500_bytes.2.1 decEmpty [] sFull []
     (by rw [show sFull.buf = List.replicate 500 37 from rfl, List.length_replicate])
     rfl,
   drain_requires_500_bytes.2.2 [List.replicate 10 0] [] (List.replicate 10 0)
     (by decide)⟩
